import Mathlib

/-!
Verification of the hal-9001 event-routing core: a shallow embedding of
`hal/event.go` (the `Evt` envelope, its clone/reply/preference operations and
the `BodyAsArgv` tokenizer) and of the console broker's `Stream` dispatcher,
together with theorems settling the specification claims.

Modelling conventions:
* Go `time.Time` values are modelled as `Nat` timestamps; `time.Now()` becomes
  an explicit `now : Nat` parameter.
* The broker interface value attached to an envelope is modelled by its
  observable identity (`name`); the side-effecting capability calls
  (`Send`, `SendDM`, `SendTable`, `ReplyFunc`) are recorded as `Action`s.
* A Go panic (explicit `panic(...)` or a nil dereference) is modelled as the
  `fatal` field of a `RunResult`: the actions performed before the panic are
  kept, nothing after it runs.
* The preference store (`prefs.go`, an external collaborator of this core) is
  a function parameter; `FindKey(k).One()` becomes `store p k`.
-/

namespace Hal9001

/-! ## Character classes and trimming (Go `strings.TrimSpace`, regexp `\s`) -/

/-- `unicode.IsSpace`, as used by `strings.TrimSpace`: Latin-1 whitespace plus
the Unicode space code points. -/
def goIsSpace (c : Char) : Bool :=
  c = ' ' || c = '\t' || c = '\n' || c = Char.ofNat 11 || c = Char.ofNat 12 ||
  c = '\r' || c = Char.ofNat 0x85 || c = Char.ofNat 0xA0 ||
  c = Char.ofNat 0x1680 || (0x2000 ≤ c.toNat && c.toNat ≤ 0x200A) ||
  c = Char.ofNat 0x2028 || c = Char.ofNat 0x2029 || c = Char.ofNat 0x202F ||
  c = Char.ofNat 0x205F || c = Char.ofNat 0x3000

/-- The whitespace class `\s` of Go's regexp package: `[\t\n\f\r ]`. -/
def reSpace (c : Char) : Bool :=
  c = ' ' || c = '\t' || c = '\n' || c = Char.ofNat 12 || c = '\r'

/-- Drop a maximal all-whitespace suffix (the right half of `TrimSpace`). -/
def rightTrimSpace : List Char → List Char
  | [] => []
  | c :: rest =>
    match rightTrimSpace rest with
    | [] => if goIsSpace c then [] else [c]
    | r => c :: r

/-- `strings.TrimSpace` on the character list of a string. -/
def trimSpace (l : List Char) : List Char :=
  rightTrimSpace (l.dropWhile goIsSpace)

/-! ## The tokenizer regex of `BodyAsArgv`

`regexp.MustCompile(`'[^']*'|"[^"]*"|\S+`).FindAllString(body, -1)`:
successive leftmost non-overlapping matches; at a match position the
alternatives are tried in order, so an opening quote with a later closing
quote matches the quoted run, and otherwise `\S+` matches the maximal
non-whitespace run.  `fuel` bounds the recursion; every call site passes the
length of the list, which the scan never exhausts (each step consumes at
least one character). -/

def findMatchesF : Nat → List Char → List (List Char)
  | 0, _ => []
  | _, [] => []
  | fuel + 1, c :: rest =>
    if reSpace c then
      findMatchesF fuel rest
    else if (c = '\'' || c = '"') && rest.contains c then
      (c :: rest.takeWhile (fun x => x ≠ c) ++ [c]) ::
        findMatchesF fuel ((rest.dropWhile (fun x => x ≠ c)).tail)
    else
      (c :: rest.takeWhile (fun x => reSpace x = false)) ::
        findMatchesF fuel (rest.dropWhile (fun x => reSpace x = false))

/-- `strings.TrimSuffix`: drop a trailing `q` when present. -/
def trimSuffixChar (q : Char) (l : List Char) : List Char :=
  if l.getLast? = some q then l.dropLast else l

/-- The quote-stripping loop of `BodyAsArgv`: when a token both starts and
ends with the same quote character, `TrimPrefix` then `TrimSuffix` it. -/
def stripToken (t : List Char) : List Char :=
  if t.head? = some '\'' && t.getLast? = some '\'' then
    trimSuffixChar '\'' t.tail
  else if t.head? = some '"' && t.getLast? = some '"' then
    trimSuffixChar '"' t.tail
  else t

/-- `Evt.BodyAsArgv` as a function of the body string: trim, scan with the
regex, strip outer quotes from each match. -/
def argvOf (s : String) : List String :=
  let trimmed := trimSpace s.data
  ((findMatchesF trimmed.length trimmed).map stripToken).map fun l => String.mk l

/-! ## Data model (`hal/event.go`) -/

/-- The observable identity of a `hal.Broker` interface value attached to an
envelope; its capabilities (`Send`, `SendDM`, `SendTable`) are recorded as
`Action`s rather than executed. -/
structure BrokerI where
  name : String
deriving DecidableEq, Repr

/-- The dynamic type of the `Original interface{}` payload: the console
broker attaches a pointer to the raw line, re-casts it to `SlashReaction` for
reaction commands, and other brokers attach opaque values. -/
inductive Payload where
  | lineRef (s : String)
  | slashReaction (s : String)
  | other (tag : String)
deriving DecidableEq, Repr

/-- A plugin setting (`hal.Setting`), as consumed by `InstanceSettings`. -/
structure Setting where
  key : String := ""
  room : String := ""
  default : String := ""
deriving DecidableEq, Repr

/-- A plugin (`hal.Plugin`): name and declared settings. -/
structure Plugin where
  name : String := ""
  settings : List Setting := []
deriving DecidableEq, Repr

/-- Plugin instance metadata (`hal.Instance`), reached through the
envelope's back-reference. -/
structure Instance where
  plugin : Plugin := {}
deriving DecidableEq, Repr

/-- `hal.Pref`: the (user, room, broker, plugin, key) → value tuple with a
success flag.  Go zero values are the field defaults. -/
structure Pref where
  user : String := ""
  room : String := ""
  broker : String := ""
  plugin : String := ""
  key : String := ""
  value : String := ""
  success : Bool := false
  default : String := ""
deriving DecidableEq, Repr

/-- `hal.Evt`.  Field defaults are the Go zero values.  `replyFunc` records
whether a `ReplyFunc` callback is attached (its invocation is observed as an
`Action`); `instanceMeta` is the `instance` field (renamed: `instance` is a
Lean keyword). -/
structure Evt where
  id : String := ""
  body : String := ""
  command : String := ""
  subject : String := ""
  room : String := ""
  roomId : String := ""
  user : String := ""
  userId : String := ""
  time : Nat := 0
  broker : Option BrokerI := none
  isChat : Bool := false
  isBot : Bool := false
  toUser : Bool := false
  toRoom : Bool := false
  toFunc : Bool := false
  replyFunc : Bool := false
  original : Option Payload := none
  instanceMeta : Option Instance := none
deriving DecidableEq, Repr

/-- An observable effect of the reply machinery: a `ReplyFunc` callback
invocation or a broker capability call. -/
inductive Action where
  | funcCall (msg : String)
  | send (e : Evt)
  | sendDM (e : Evt)
  | sendTable (e : Evt) (hdr : List String) (rows : List (List String))
deriving DecidableEq, Repr

/-- The outcome of running a reply operation: the broker/callback actions it
performed, and the panic message if it aborted. -/
structure RunResult where
  acts : List Action
  fatal : Option String
deriving DecidableEq, Repr

/-! ## Operations on `Evt` (`hal/event.go`) -/

/-- `Evt.Clone`: copies ID/room/user/broker/flags and the original payload,
takes a fresh timestamp, leaves every other field at its zero value. -/
def Evt.Clone (e : Evt) (now : Nat) : Evt :=
  { id := e.id
    room := e.room
    roomId := e.roomId
    user := e.user
    userId := e.userId
    time := now
    broker := e.broker
    isChat := e.isChat
    isBot := e.isBot
    original := e.original }

/-- `Evt.BodyAsArgv`. -/
def Evt.BodyAsArgv (e : Evt) : List String :=
  argvOf e.body

/-- `Evt.BrokerName`: `e.Broker.Name()`, a nil-dereference panic when no
broker is attached. -/
def Evt.BrokerName (e : Evt) : Except String String :=
  match e.broker with
  | some b => .ok b.name
  | none => .error "invalid memory address or nil pointer dereference"

/-- `Evt.ReplyDM`: clone, set the body, call `Broker.SendDM` — which is a
nil-dereference panic when no broker is attached. -/
def Evt.ReplyDM (e : Evt) (msg : String) (now : Nat) : RunResult :=
  let out := { e.Clone now with body := msg }
  match e.broker with
  | some _ => ⟨[Action.sendDM out], none⟩
  | none => ⟨[], some "invalid memory address or nil pointer dereference"⟩

/-- `Evt.ReplyToRoom`: clone, set the body, `Broker.Send` the clone, with an
explicit panic when no broker is attached. -/
def Evt.ReplyToRoom (e : Evt) (msg : String) (now : Nat) : RunResult :=
  let out := { e.Clone now with body := msg }
  match e.broker with
  | some _ => ⟨[Action.send out], none⟩
  | none => ⟨[], some "hal.Evt.Reply called with nil Broker!"⟩

/-- `Evt.ReplyTable`: clone (body untouched), `Broker.SendTable`, with an
explicit panic when no broker is attached. -/
def Evt.ReplyTable (e : Evt) (hdr : List String) (rows : List (List String))
    (now : Nat) : RunResult :=
  let out := e.Clone now
  match e.broker with
  | some _ => ⟨[Action.sendTable out hdr rows], none⟩
  | none => ⟨[], some "hal.Evt.ReplyTable called with nil Broker!"⟩

/-- The plugin-name guard of `AsPref`: `e.instance.Plugin.Name` when the
instance back-reference is set, the empty string otherwise. -/
def pluginNameOf : Option Instance → String
  | some i => i.plugin.name
  | none => ""

/-- `Evt.AsPref`: user id, room id, broker name and (optional) plugin name as
a preference key; tolerates a missing instance back-reference, but calls
`BrokerName` unconditionally. -/
def Evt.AsPref (e : Evt) : Except String Pref :=
  let plugin := pluginNameOf e.instanceMeta
  match e.BrokerName with
  | .error m => .error m
  | .ok bn =>
    .ok { user := e.userId, room := e.roomId, broker := bn, plugin := plugin }

/-- `Evt.Reply`: the routing decision.  Force flags fire independently and in
order (function, room, DM); if any fired the preference store is never
consulted; otherwise the `"reply-via-dm"` preference picks DM over room. -/
def Evt.Reply (e : Evt) (msg : String) (now : Nat)
    (store : Pref → String → Pref) : RunResult :=
  let r1 : RunResult :=
    if e.toFunc then
      if e.replyFunc then ⟨[Action.funcCall msg], none⟩
      else ⟨[], some "invalid memory address or nil pointer dereference"⟩
    else ⟨[], none⟩
  match r1.fatal with
  | some _ => r1
  | none =>
    let r2 := if e.toRoom then e.ReplyToRoom msg now else ⟨[], none⟩
    match r2.fatal with
    | some m => ⟨r1.acts ++ r2.acts, some m⟩
    | none =>
      let r3 := if e.toUser then e.ReplyDM msg now else ⟨[], none⟩
      match r3.fatal with
      | some m => ⟨r1.acts ++ r2.acts ++ r3.acts, some m⟩
      | none =>
        if e.toFunc || e.toRoom || e.toUser then
          ⟨r1.acts ++ r2.acts ++ r3.acts, none⟩
        else
          match e.AsPref with
          | .error m => ⟨[], some m⟩
          | .ok p =>
            let replyVia := store p "reply-via-dm"
            if replyVia.success && replyVia.value == "true" then
              e.ReplyDM msg now
            else
              e.ReplyToRoom msg now

/-- `Evt.FindPrefs`: `hal.FindPrefs(e.User, broker, e.RoomId, plugin, "")`,
with the package-level store as a parameter.  `BrokerName` is called first,
then the instance back-reference is dereferenced. -/
def Evt.FindPrefs (e : Evt)
    (db : String → String → String → String → String → List Pref) :
    Except String (List Pref) :=
  match e.BrokerName with
  | .error m => .error m
  | .ok broker =>
    match e.instanceMeta with
    | none => .error "invalid memory address or nil pointer dereference"
    | some inst => .ok (db e.user broker e.roomId inst.plugin.name "")

/-- `Evt.InstanceSettings`: iterate the plugin's declared settings, skip
settings scoped to another room (`stg.Room != "" && stg.Room != e.RoomId`
means `continue`), resolve the rest through
`GetPref("", broker, e.RoomId, plugin, stg.Key, stg.Default)`. -/
def Evt.InstanceSettings (e : Evt)
    (get : String → String → String → String → String → String → Pref) :
    Except String (List Pref) :=
  match e.BrokerName with
  | .error m => .error m
  | .ok broker =>
    match e.instanceMeta with
    | none => .error "invalid memory address or nil pointer dereference"
    | some inst =>
      let plugin := inst.plugin.name
      .ok ((inst.plugin.settings.filter
          (fun stg => stg.room == "" || stg.room == e.roomId)).map
        fun stg => get "" broker e.roomId plugin stg.key stg.default)

/-! ## The console broker (`brokers/console`) -/

/-- The console broker's configured identity (`Broker.User`, `Broker.Room`);
its queues are modelled by the forwarded-event and action lists below. -/
structure ConsoleBroker where
  user : String := "testuser"
  room : String := "console"
deriving DecidableEq, Repr

/-- The envelope `Stream` constructs for one inbound line: user/room from the
configured identity, the broker attached under its `Name()` (= the room), and
the original payload a reference to the raw line. -/
def consoleEvt (cb : ConsoleBroker) (input : String) (now : Nat) : Evt :=
  { user := cb.user
    userId := cb.user
    room := cb.room
    roomId := cb.room
    body := input
    time := now
    broker := some ⟨cb.room⟩
    original := some (Payload.lineRef input) }

/-- The usage-error reply of the `/reaction` command. -/
def usageMsg : String := "/reaction requires exactly one argument!"

/-- `strings.HasPrefix s pre`. -/
def goHasPrefix (s pre : String) : Bool :=
  s.data.take pre.data.length == pre.data

/-- One iteration of `Broker.Stream`: build the envelope; a line starting
with `/` goes through the slash-command switch (`args[0]`), everything else
is forwarded.  Note the forward `out <- &e` sits only in the `else` branch of
the `/`-prefix test: the `/reaction` arm mutates the envelope (body replaced,
original re-cast to `SlashReaction`) but the mutated envelope is then
discarded, and an unrecognized slash command falls through the switch.
Returns (forwarded events, reply actions/panic). -/
def streamLine (cb : ConsoleBroker) (input : String) (now : Nat)
    (store : Pref → String → Pref) : List Evt × RunResult :=
  let e := consoleEvt cb input now
  if goHasPrefix input "/" then
    match e.BodyAsArgv with
    | [] => ([], ⟨[], some "index out of range"⟩)
    | a0 :: rest =>
      if a0 = "/reaction" then
        if rest.length = 1 then
          ([], ⟨[], none⟩)
        else
          ([], e.Reply usageMsg now store)
      else ([], ⟨[], none⟩)
  else ([e], ⟨[], none⟩)


/-! ## Auxiliary observation functions and concrete fixtures -/

/-- Checks that an outbound envelope carries no forcing state: all three
delivery-intent flags clear and no delivery-function reference. -/
def Action.noForce : Action → Bool
  | .funcCall _ => true
  | .send ev => !ev.toFunc && !ev.toRoom && !ev.toUser && !ev.replyFunc
  | .sendDM ev => !ev.toFunc && !ev.toRoom && !ev.toUser && !ev.replyFunc
  | .sendTable ev _ _ => !ev.toFunc && !ev.toRoom && !ev.toUser && !ev.replyFunc

/-- The text a delivery action carries to its destination. -/
def actionText : Action → String
  | .funcCall m => m
  | .send ev => ev.body
  | .sendDM ev => ev.body
  | .sendTable _ _ _ => ""

/-- Whether an `Except` computation completed without a panic. -/
def exceptOk {α : Type} : Except String α → Bool
  | .ok _ => true
  | .error _ => false

/-- A concrete inbound envelope with a raw broker payload attached. -/
def eC2 : Evt :=
  { body := "hello", command := "cmd", subject := "subj",
    original := some (Payload.other "slackMsg"), time := 100 }

/-- A preference store with no stored rows: every lookup misses. -/
def storeMiss : Pref → String → Pref := fun _ _ => {}

/-- A preference store where every lookup hits with the value "true". -/
def storeHit : Pref → String → Pref :=
  fun p k => { p with key := k, value := "true", success := true }

/-- A concrete broker identity. -/
def bW : BrokerI := ⟨"slack"⟩

/-- Envelope with the force-to-function flag and a delivery function. -/
def eFuncW : Evt := { toFunc := true, replyFunc := true }

/-- Envelope with only the force-to-room flag, broker attached. -/
def eRoomW : Evt := { userId := "u1", roomId := "r1", broker := some bW, toRoom := true }

/-- Envelope with both force-to-room and force-to-user, broker attached. -/
def eBothW : Evt :=
  { userId := "u1", roomId := "r1", broker := some bW, toRoom := true, toUser := true }

/-- Envelope with no force flags, broker attached, no instance metadata. -/
def eNoneW : Evt := { userId := "u1", roomId := "r1", broker := some bW }

/-- Concrete plugin instance metadata. -/
def instW : Instance := { plugin := { name := "plugw" } }

/-- Envelope with no force flags, broker attached, instance metadata set. -/
def eInstW : Evt :=
  { userId := "u1", roomId := "r1", broker := some bW, instanceMeta := some instW }

/-- A recording `GetPref` store: the returned row carries the query scope. -/
def recGet : String → String → String → String → String → String → Pref :=
  fun u b r p k d =>
    { user := u, room := r, broker := b, plugin := p, key := k, value := d,
      success := true, default := d }

/-- A recording `FindPrefs` store: one row carrying the query scope. -/
def recDb : String → String → String → String → String → List Pref :=
  fun u b r p k => [{ user := u, room := r, broker := b, plugin := p, key := k }]

/-- Instance metadata with one declared, unscoped setting. -/
def instC10 : Instance :=
  { plugin := { name := "plug", settings := [{ key := "k", default := "d" }] } }

/-- Envelope with a named user, broker and instance metadata attached. -/
def eC10 : Evt :=
  { user := "alice", userId := "alice", room := "general", roomId := "room1",
    broker := some ⟨"slack"⟩, instanceMeta := some instC10 }

/-- Envelope with a broker but no instance metadata. -/
def eC10none : Evt := { user := "alice", broker := some ⟨"slack"⟩ }

/-! ## Helper lemmas -/

theorem reSpace_imp_goIsSpace (c : Char) : reSpace c = true → goIsSpace c = true := by
  intro h
  simp only [reSpace, Bool.or_eq_true, decide_eq_true_eq] at h
  rcases h with ((((h | h) | h) | h) | h) <;> subst h <;> decide

theorem dropWhile_head_not {α : Type} (p : α → Bool) :
    ∀ (l : List α) (h : α) (t : List α), l.dropWhile p = h :: t → p h = false := by
  intro l
  induction l with
  | nil => intro h t hh; simp [List.dropWhile] at hh
  | cons c rest ih =>
    intro h t hh
    by_cases hc : p c = true
    · rw [List.dropWhile_cons, if_pos hc] at hh
      exact ih h t hh
    · rw [List.dropWhile_cons, if_neg hc] at hh
      cases hh
      simpa using hc

theorem rightTrimSpace_cons (c : Char) (l : List Char) :
    rightTrimSpace (c :: l) = [] ∨ ∃ t, rightTrimSpace (c :: l) = c :: t := by
  cases h : rightTrimSpace l with
  | nil =>
    by_cases hc : goIsSpace c = true
    · left; simp [rightTrimSpace, h, hc]
    · right; exact ⟨[], by simp [rightTrimSpace, h, hc]⟩
  | cons a r => right; exact ⟨a :: r, by simp [rightTrimSpace, h]⟩

theorem rightTrimSpace_cons_eq (c : Char) (l : List Char) :
    rightTrimSpace (c :: l) =
      match rightTrimSpace l with
      | [] => if goIsSpace c then [] else [c]
      | r => c :: r := rfl

theorem rightTrimSpace_idem :
    ∀ l : List Char, rightTrimSpace (rightTrimSpace l) = rightTrimSpace l := by
  intro l
  induction l with
  | nil => rfl
  | cons c rest ih =>
    cases h : rightTrimSpace rest with
    | nil =>
      by_cases hc : goIsSpace c = true
      · simp [rightTrimSpace, h, hc]
      · simp [rightTrimSpace, h, hc]
    | cons a r =>
      rw [h] at ih
      have e1 : rightTrimSpace (c :: rest) = c :: a :: r := by
        rw [rightTrimSpace_cons_eq, h]
      rw [e1, rightTrimSpace_cons_eq, ih]

theorem trimSpace_idem (l : List Char) : trimSpace (trimSpace l) = trimSpace l := by
  unfold trimSpace
  cases h1 : l.dropWhile goIsSpace with
  | nil => rfl
  | cons c t =>
    have hc : goIsSpace c = false := dropWhile_head_not _ l c t h1
    rcases rightTrimSpace_cons c t with h2 | ⟨t2, h2⟩
    · rw [h2]; rfl
    · rw [h2, List.dropWhile_cons, if_neg (by simp [hc]), ← h2, rightTrimSpace_idem]

theorem findMatchesF_cons_ne_nil (n : Nat) (c : Char) (t : List Char)
    (hc : reSpace c = false) : findMatchesF (n + 1) (c :: t) ≠ [] := by
  simp only [findMatchesF, hc, Bool.false_eq_true, if_false]
  split <;> simp

theorem trimSpace_head_not_space (l : List Char) (c : Char) (t : List Char)
    (h : trimSpace l = c :: t) : goIsSpace c = false := by
  unfold trimSpace at h
  cases h1 : l.dropWhile goIsSpace with
  | nil => rw [h1] at h; simp [rightTrimSpace] at h
  | cons c0 t0 =>
    rw [h1] at h
    have hc0 : goIsSpace c0 = false := dropWhile_head_not _ l c0 t0 h1
    rcases rightTrimSpace_cons c0 t0 with h2 | ⟨t2, h2⟩
    · rw [h2] at h; cases h
    · rw [h2] at h
      cases h
      exact hc0

theorem argvOf_eq_nil_iff (s : String) : argvOf s = [] ↔ trimSpace s.data = [] := by
  constructor
  · intro h
    cases htr : trimSpace s.data with
    | nil => rfl
    | cons c t =>
      exfalso
      have hc : goIsSpace c = false := trimSpace_head_not_space s.data c t htr
      have hre : reSpace c = false := by
        cases hre : reSpace c with
        | false => rfl
        | true => rw [reSpace_imp_goIsSpace c hre] at hc; cases hc
      have hne := findMatchesF_cons_ne_nil t.length c t hre
      rw [argvOf, htr] at h
      simp only [List.map_eq_nil_iff] at h
      exact hne (by simpa using h)
  · intro h
    simp [argvOf, h, findMatchesF]

theorem argvOf_trim (s : String) : argvOf (String.mk (trimSpace s.data)) = argvOf s := by
  show ((findMatchesF (trimSpace (trimSpace s.data)).length
      (trimSpace (trimSpace s.data))).map stripToken).map (fun l => String.mk l) = _
  rw [trimSpace_idem]
  rfl

/-- The reply routing of an envelope with no force flags and an attached
broker: the stored preference decides between the DM and room paths.  Shared
by the preference-fallback and console usage-error theorems. -/
theorem reply_no_flags (e : Evt) (b : BrokerI) (msg : String) (now : Nat)
    (store : Pref → String → Pref) (hb : e.broker = some b)
    (hf : e.toFunc = false) (hr : e.toRoom = false) (hu : e.toUser = false) :
    e.Reply msg now store =
      if (store { user := e.userId, room := e.roomId, broker := b.name,
                  plugin := pluginNameOf e.instanceMeta } "reply-via-dm").success &&
          ((store { user := e.userId, room := e.roomId, broker := b.name,
                    plugin := pluginNameOf e.instanceMeta } "reply-via-dm").value == "true") then
        ⟨[Action.sendDM { e.Clone now with body := msg }], none⟩
      else ⟨[Action.send { e.Clone now with body := msg }], none⟩ := by
  have hp : e.AsPref = .ok { user := e.userId, room := e.roomId, broker := b.name,
                             plugin := pluginNameOf e.instanceMeta } := by
    simp [Evt.AsPref, Evt.BrokerName, hb]
  simp only [Evt.Reply, hf, hr, hu, if_false, Bool.false_eq_true, ite_false, Bool.or_self, hp]
  split <;> simp [Evt.ReplyDM, Evt.ReplyToRoom, hb]

/-! ## Claim theorems -/

/-- C1: the spec says an inbound `/reaction X` line with exactly one argument
is forwarded as one event with body `X` and a `SlashReaction`-typed payload.
The code parses the line that way but the forward (`out <- &e`) sits only in
the non-slash-command branch of `Stream`, so the mutated envelope is
discarded: zero events are forwarded and zero replies are sent. -/
theorem c1_reaction_never_forwarded (cb : ConsoleBroker) (now : Nat)
    (store : Pref → String → Pref) :
    (consoleEvt cb "/reaction :thumbsup:" now).BodyAsArgv = ["/reaction", ":thumbsup:"] ∧
    streamLine cb "/reaction :thumbsup:" now store = ([], ⟨[], none⟩) :=
  ⟨rfl, rfl⟩

/-- C2: the spec says `Clone` purges body, command, subject and the original
payload.  Body, command and subject are indeed reset and the timestamp is
replaced, but `Clone` copies the original payload (`Original: e.Original`),
contradicting the claim and the function's own doc comment. -/
theorem c2_clone_keeps_original :
    (eC2.Clone 101).original = some (Payload.other "slackMsg") ∧
    (eC2.Clone 101).body = "" ∧ (eC2.Clone 101).command = "" ∧
    (eC2.Clone 101).subject = "" ∧ (eC2.Clone 101).time = 101 ∧
    eC2.original = (eC2.Clone 101).original := by decide

/-- C3: force-flag precedence in `Reply`: force-to-function always invokes
the stored delivery function with the message; only force-to-room gives
exactly one room send; force-to-room plus force-to-user gives a room send
and a DM send of the same message; and whenever any force flag fired the
preference store is never consulted (the result is store-independent). -/
theorem c3_force_precedence (e : Evt) (b : BrokerI) (msg : String) (now : Nat)
    (store store2 : Pref → String → Pref) :
    (e.toFunc = true → e.replyFunc = true →
      ∃ l, (e.Reply msg now store).acts = Action.funcCall msg :: l) ∧
    (e.broker = some b → e.toFunc = false → e.toRoom = true → e.toUser = false →
      e.Reply msg now store = ⟨[Action.send { e.Clone now with body := msg }], none⟩) ∧
    (e.broker = some b → e.toFunc = false → e.toRoom = true → e.toUser = true →
      e.Reply msg now store =
        ⟨[Action.send { e.Clone now with body := msg },
          Action.sendDM { e.Clone now with body := msg }], none⟩) ∧
    ((e.toFunc || e.toRoom || e.toUser) = true →
      e.Reply msg now store = e.Reply msg now store2) := by
  refine ⟨?_, ?_, ?_, ?_⟩
  · intro hf hrf
    cases hr : e.toRoom <;> cases hu : e.toUser <;> cases hb2 : e.broker <;>
      simp [Evt.Reply, Evt.ReplyToRoom, Evt.ReplyDM, hf, hrf, hr, hu, hb2]
  · intro hb hf hr hu
    simp [Evt.Reply, Evt.ReplyToRoom, Evt.ReplyDM, hf, hr, hu, hb]
  · intro hb hf hr hu
    simp [Evt.Reply, Evt.ReplyToRoom, Evt.ReplyDM, hf, hr, hu, hb]
  · intro h
    cases hf : e.toFunc <;> cases hrf : e.replyFunc <;> cases hr : e.toRoom <;>
      cases hu : e.toUser <;> cases hb2 : e.broker <;>
        simp_all [Evt.Reply, Evt.ReplyToRoom, Evt.ReplyDM]

/-- Witness for C3 at concrete envelopes: a function-forced envelope, a
room-only envelope and a room-plus-user envelope, with both a missing and a
hitting preference store. -/
theorem c3_witness :
    (∃ l, (eFuncW.Reply "m" 1 storeMiss).acts = Action.funcCall "m" :: l) ∧
    eRoomW.Reply "m" 1 storeMiss = ⟨[Action.send { eRoomW.Clone 1 with body := "m" }], none⟩ ∧
    eBothW.Reply "m" 1 storeMiss =
      ⟨[Action.send { eBothW.Clone 1 with body := "m" },
        Action.sendDM { eBothW.Clone 1 with body := "m" }], none⟩ ∧
    eRoomW.Reply "m" 1 storeMiss = eRoomW.Reply "m" 1 storeHit := by
  refine ⟨?_, ?_, ?_, ?_⟩
  · exact (c3_force_precedence eFuncW bW "m" 1 storeMiss storeHit).1 rfl rfl
  · exact (c3_force_precedence eRoomW bW "m" 1 storeMiss storeHit).2.1 rfl rfl rfl rfl
  · exact (c3_force_precedence eBothW bW "m" 1 storeMiss storeHit).2.2.1 rfl rfl rfl rfl
  · exact (c3_force_precedence eRoomW bW "m" 1 storeMiss storeHit).2.2.2 rfl

/-- C4: with no force flags set, `Reply` queries the store for
`"reply-via-dm"` scoped to the envelope's (user id, room id, broker name,
plugin name); a successful lookup whose value is exactly "true" gives one DM
send, and every other outcome gives one room send. -/
theorem c4_pref_fallback (e : Evt) (b : BrokerI) (msg : String) (now : Nat)
    (store : Pref → String → Pref) (hb : e.broker = some b)
    (hf : e.toFunc = false) (hr : e.toRoom = false) (hu : e.toUser = false) :
    e.Reply msg now store =
      if (store { user := e.userId, room := e.roomId, broker := b.name,
                  plugin := pluginNameOf e.instanceMeta } "reply-via-dm").success &&
          ((store { user := e.userId, room := e.roomId, broker := b.name,
                    plugin := pluginNameOf e.instanceMeta } "reply-via-dm").value == "true") then
        ⟨[Action.sendDM { e.Clone now with body := msg }], none⟩
      else ⟨[Action.send { e.Clone now with body := msg }], none⟩ :=
  reply_no_flags e b msg now store hb hf hr hu

/-- Witness for C4: a hitting "true" preference routes to DM, a missing
preference routes to the room. -/
theorem c4_witness :
    eNoneW.Reply "m" 1 storeHit = ⟨[Action.sendDM { eNoneW.Clone 1 with body := "m" }], none⟩ ∧
    eNoneW.Reply "m" 1 storeMiss = ⟨[Action.send { eNoneW.Clone 1 with body := "m" }], none⟩ := by
  constructor
  · rw [c4_pref_fallback eNoneW bW "m" 1 storeHit rfl rfl rfl rfl]; rfl
  · rw [c4_pref_fallback eNoneW bW "m" 1 storeMiss rfl rfl rfl rfl]; rfl

/-- C5: with no broker attached, both delivery paths abort (an explicit
panic for the room path, a nil-interface call for the DM path) and deliver
nothing; with a broker attached, each path sends a clone of the envelope
whose body is the message through the matching broker capability. -/
theorem c5_send_paths (e : Evt) (b : BrokerI) (msg : String) (now : Nat) :
    (e.broker = none →
      e.ReplyToRoom msg now = ⟨[], some "hal.Evt.Reply called with nil Broker!"⟩ ∧
      e.ReplyDM msg now = ⟨[], some "invalid memory address or nil pointer dereference"⟩) ∧
    (e.broker = some b →
      e.ReplyToRoom msg now = ⟨[Action.send { e.Clone now with body := msg }], none⟩ ∧
      e.ReplyDM msg now = ⟨[Action.sendDM { e.Clone now with body := msg }], none⟩) := by
  constructor
  · intro h
    exact ⟨by simp [Evt.ReplyToRoom, h], by simp [Evt.ReplyDM, h]⟩
  · intro h
    exact ⟨by simp [Evt.ReplyToRoom, h], by simp [Evt.ReplyDM, h]⟩

/-- Witness for C5: a broker-less envelope aborts, a console envelope
delivers to the room. -/
theorem c5_witness :
    ({ } : Evt).broker = none ∧
    ({ } : Evt).ReplyToRoom "x" 3 = ⟨[], some "hal.Evt.Reply called with nil Broker!"⟩ ∧
    (consoleEvt {} "hi" 2).broker = some ⟨"console"⟩ ∧
    (consoleEvt {} "hi" 2).ReplyToRoom "x" 3 =
      ⟨[Action.send { (consoleEvt {} "hi" 2).Clone 3 with body := "x" }], none⟩ := by
  refine ⟨rfl, ((c5_send_paths {} ⟨"console"⟩ "x" 3).1 rfl).1, rfl, ?_⟩
  exact ((c5_send_paths (consoleEvt {} "hi" 2) ⟨"console"⟩ "x" 3).2 rfl).1

/-- C6: a slash line whose first token is `/reaction` with an argument count
other than one yields no forwarded event and exactly one usage-error reply;
a slash line with any other first token is silently dropped: no forward, no
reply, no abort. -/
theorem c6_slash_commands (cb : ConsoleBroker) (input : String) (now : Nat)
    (store : Pref → String → Pref) (a0 : String) (rest : List String)
    (hpre : goHasPrefix input "/" = true)
    (hargs : argvOf input = a0 :: rest) :
    (a0 = "/reaction" → rest.length ≠ 1 →
      (streamLine cb input now store).1 = [] ∧
      (streamLine cb input now store).2.fatal = none ∧
      ∃ a, (streamLine cb input now store).2.acts = [a] ∧ actionText a = usageMsg) ∧
    (a0 ≠ "/reaction" → streamLine cb input now store = ([], ⟨[], none⟩)) := by
  have hbody : (consoleEvt cb input now).BodyAsArgv = a0 :: rest := hargs
  have hreply := reply_no_flags (consoleEvt cb input now) ⟨cb.room⟩ usageMsg now store
    rfl rfl rfl rfl
  constructor
  · intro h0 hlen
    simp only [streamLine, hpre, if_true, hbody, h0, if_pos rfl, if_neg hlen, hreply]
    split
    · exact ⟨trivial, rfl, _, rfl, rfl⟩
    · exact ⟨trivial, rfl, _, rfl, rfl⟩
  · intro h0
    simp only [streamLine, hpre, if_true, hbody, if_neg h0]

/-- Witness for C6: `/reaction a b` draws the usage error, `/unknown x` is
dropped silently. -/
theorem c6_witness :
    ((streamLine {} "/reaction a b" 0 storeMiss).1 = [] ∧
      (streamLine {} "/reaction a b" 0 storeMiss).2.fatal = none ∧
      ∃ a, (streamLine {} "/reaction a b" 0 storeMiss).2.acts = [a] ∧
        actionText a = usageMsg) ∧
    streamLine {} "/unknown x" 0 storeMiss = ([], ⟨[], none⟩) :=
  ⟨(c6_slash_commands {} "/reaction a b" 0 storeMiss "/reaction" ["a", "b"]
      (by decide) (by decide)).1 rfl (by decide),
   (c6_slash_commands {} "/unknown x" 0 storeMiss "/unknown" ["x"]
      (by decide) (by decide)).2 (by decide)⟩

/-- C7: the tokenizer behind `BodyAsArgv`: the three example inputs tokenize
as specified, the body is trimmed before tokenizing (tokenizing the trimmed
body gives the same result), and the result is empty exactly when the
trimmed body is empty; the unterminated quote recovers "a" plus one token
for the remainder. -/
theorem c7_tokenizer :
    ({ body := " a 'b c' d" } : Evt).BodyAsArgv = ["a", "b c", "d"] ∧
    ({ body := "" } : Evt).BodyAsArgv = [] ∧
    (∀ e : Evt, e.BodyAsArgv = argvOf (String.mk (trimSpace e.body.data))) ∧
    (∀ e : Evt, e.BodyAsArgv = [] ↔ trimSpace e.body.data = []) ∧
    (∃ t, ({ body := "a 'b" } : Evt).BodyAsArgv = ["a", t]) := by
  refine ⟨by decide, by decide, ?_, ?_, ⟨"'b", by decide⟩⟩
  · intro e
    exact (argvOf_trim e.body).symm
  · intro e
    exact argvOf_eq_nil_iff e.body

/-- C8: with a broker attached, `AsPref` returns the preference key built
from user id, room id and broker name, with the plugin field taken from the
instance metadata when present and empty when absent — and it succeeds in
both cases. -/
theorem c8_aspref (e : Evt) (b : BrokerI) (hb : e.broker = some b) :
    (e.instanceMeta = none →
      e.AsPref = .ok { user := e.userId, room := e.roomId, broker := b.name, plugin := "" }) ∧
    (∀ i, e.instanceMeta = some i →
      e.AsPref = .ok { user := e.userId, room := e.roomId, broker := b.name,
                       plugin := i.plugin.name }) := by
  constructor
  · intro h
    simp [Evt.AsPref, Evt.BrokerName, hb, h, pluginNameOf]
  · intro i h
    simp [Evt.AsPref, Evt.BrokerName, hb, h, pluginNameOf]

/-- Witness for C8: `AsPref` with and without instance metadata. -/
theorem c8_witness :
    eNoneW.AsPref = .ok { user := "u1", room := "r1", broker := "slack", plugin := "" } ∧
    eInstW.AsPref = .ok { user := "u1", room := "r1", broker := "slack", plugin := "plugw" } :=
  ⟨(c8_aspref eNoneW bW rfl).1 rfl, (c8_aspref eInstW bW rfl).2 instW rfl⟩

/-- C9: `Clone` never copies the delivery-intent flags or the delivery
function, so every outbound envelope produced by `ReplyDM`, `ReplyToRoom`
and `ReplyTable` carries no forcing state. -/
theorem c9_clone_clears_forcing (e : Evt) (now : Nat) (msg : String)
    (hdr : List String) (rows : List (List String)) :
    (e.Clone now).toFunc = false ∧ (e.Clone now).toRoom = false ∧
    (e.Clone now).toUser = false ∧ (e.Clone now).replyFunc = false ∧
    (e.ReplyDM msg now).acts.all Action.noForce = true ∧
    (e.ReplyToRoom msg now).acts.all Action.noForce = true ∧
    (e.ReplyTable hdr rows now).acts.all Action.noForce = true := by
  cases h : e.broker <;>
    simp [Evt.Clone, Evt.ReplyDM, Evt.ReplyToRoom, Evt.ReplyTable, Action.noForce, h]

/-- C10 counterexample: the claim says `InstanceSettings` returns rows scoped
to the envelope's user, but the code queries `GetPref` with an empty user:
under a recording store the returned row's user field is "" although the
envelope's user is "alice". -/
theorem c10_counterexample :
    eC10.InstanceSettings recGet = .ok [recGet "" "slack" "room1" "plug" "k" "d"] ∧
    (recGet "" "slack" "room1" "plug" "k" "d").user ≠ eC10.user :=
  ⟨rfl, by decide⟩

/-- C10 as amended: without instance metadata both accessors abort (nil
dereference); with broker and instance attached, `FindPrefs` queries the
store scoped to (user, broker name, room id, plugin name, wildcard key),
while `InstanceSettings` resolves the non-room-foreign declared settings
scoped to (empty user, broker name, room id, plugin name). -/
theorem c10_pref_accessors (e : Evt) (b : BrokerI) (inst : Instance)
    (db : String → String → String → String → String → List Pref)
    (get : String → String → String → String → String → String → Pref) :
    (e.instanceMeta = none →
      exceptOk (e.FindPrefs db) = false ∧ exceptOk (e.InstanceSettings get) = false) ∧
    (e.broker = some b → e.instanceMeta = some inst →
      e.FindPrefs db = .ok (db e.user b.name e.roomId inst.plugin.name "") ∧
      e.InstanceSettings get = .ok ((inst.plugin.settings.filter
          (fun stg => stg.room == "" || stg.room == e.roomId)).map
        (fun stg => get "" b.name e.roomId inst.plugin.name stg.key stg.default))) := by
  constructor
  · intro h
    cases hb : e.broker <;>
      simp [Evt.FindPrefs, Evt.InstanceSettings, Evt.BrokerName, hb, h, exceptOk]
  · intro hb h
    simp [Evt.FindPrefs, Evt.InstanceSettings, Evt.BrokerName, hb, h]

/-- Witness for C10: the accessors abort without instance metadata and query
the recording store under the amended scoping with it. -/
theorem c10_witness :
    exceptOk (eC10none.FindPrefs recDb) = false ∧
    eC10.FindPrefs recDb = .ok (recDb "alice" "slack" "room1" "plug" "") :=
  ⟨((c10_pref_accessors eC10none ⟨"slack"⟩ {} recDb recGet).1 rfl).1,
   ((c10_pref_accessors eC10 ⟨"slack"⟩ instC10 recDb recGet).2 rfl rfl).1⟩

end Hal9001
